import Mathlib

/-!
Verification development for the `polynomial` package of the
`gomathpro` repository: string-to-coefficient parsing, root finding
(closed form for degree ≤ 2 and the Durand–Kerner simultaneous
iteration for higher degrees), factorization of degree ≤ 2
polynomials, and Vandermonde interpolation.

Modelling conventions:
  * Go `float64` / `complex128` arithmetic is modelled exactly, by `ℚ`
    for the parser (whose outputs are exact decimals) and by `ℝ` / `ℂ`
    for the numeric routines.
  * `cmplx.Pow(x, complex(float64(i), 0))` for a natural number `i` is
    modelled as the monoid power `x ^ i` (they agree in exact
    arithmetic, including `Pow(0, 0) = 1`).
  * Each `fmt.Errorf` site is modelled by one constructor of
    `PolyError`, named after the site.
-/

namespace Gomathpro

/-- One error constructor per `fmt.Errorf` site of the `polynomial`
package. -/
inductive PolyError where
  /-- "invalid polynomial format" (no terms found). -/
  | invalidFormat
  /-- "invalid polynomial format: extra/unmatched text in %q". -/
  | unmatchedText
  /-- "invalid term: %s" (a `^`-split does not give 2 parts). -/
  | invalidTerm
  /-- "invalid degree in term: %s" (`strconv.Atoi` failed). -/
  | invalidDegree
  /-- "invalid coefficient in term: %s" (`strconv.ParseFloat` failed). -/
  | invalidCoefficient
  /-- "invalid constant term: %s" (`strconv.ParseFloat` failed). -/
  | invalidConstant
  /-- "no coefficients provided". -/
  | noCoefficients
  /-- "invalid linear polynomial (coefficient of x cannot be zero)". -/
  | invalidLinear
  /-- "invalid quadratic polynomial (coefficient of x^2 cannot be zero)". -/
  | invalidQuadratic
  /-- "factorization is only supported for linear and quadratic polynomials". -/
  | unsupportedDegree
  /-- "unsupported polynomial degree" (the `default` arm of `Factorize`). -/
  | unsupportedDegreeOther
  /-- "cannot factorize polynomial with complex roots". -/
  | complexRoots
  /-- "no points provided". -/
  | noPoints
  /-- "failed to solve interpolation: %v" (singular linear system). -/
  | singularSystem
  deriving DecidableEq

deriving instance DecidableEq for Except

/-- The spec's `FormatError` class: the errors raised by `ParsePolynomial`. -/
def PolyError.isFormat : PolyError → Bool
  | .invalidFormat | .unmatchedText | .invalidTerm
  | .invalidDegree | .invalidCoefficient | .invalidConstant => true
  | _ => false

/-! ### A small regular-expression engine

Go's `regexp` package uses leftmost-first (Perl-style) matching: the
match starts as early as possible in the input and, among matches at
that position, is the one a backtracking search (preferring the left
alternative and the greedy option for `?` and `*`) finds first.  The
engine below implements exactly those semantics for the combinators
the term regex `([+-]?\d*\.?\d*x\^?\d*|[-+]?\d*\.?\d+)` needs.
Quantified subexpressions in that regex are single character classes,
so `star` takes a character predicate directly. -/

inductive Regex where
  /-- Matches the empty string. -/
  | eps
  /-- A character class. -/
  | cls (p : Char → Bool)
  /-- Concatenation. -/
  | seq (a b : Regex)
  /-- Alternation, preferring the left branch. -/
  | alt (a b : Regex)
  /-- Greedy `?`. -/
  | opt (a : Regex)
  /-- Greedy `*` of a character class. -/
  | star (p : Char → Bool)

/-- Structural size of a regex, used for termination of the matcher. -/
def Regex.size : Regex → Nat
  | .eps => 1
  | .cls _ => 1
  | .seq a b => a.size + b.size + 1
  | .alt a b => a.size + b.size + 1
  | .opt a => a.size + 1
  | .star _ => 1

/-- Total size of a list of regexes. -/
def sizeL : List Regex → Nat
  | [] => 0
  | r :: rs => r.size + sizeL rs

/-- Backtracking matcher: match the concatenation of the given regexes
against a front segment of `s`, returning the remaining characters of
the first (in backtracking order) successful match.  Left alternatives
and greedy consumption are tried first, giving Go's leftmost-first
semantics for an anchored match.  Every recursive call strictly
decreases `s.length + sizeL l`, so `fuel` is only a structural
recursion device: with `fuel > s.length + sizeL l` the out-of-fuel
case is unreachable. -/
def matchListF : Nat → List Regex → List Char → Option (List Char)
  | 0, _, _ => none
  | _ + 1, [], s => some s
  | fuel + 1, .eps :: rs, s => matchListF fuel rs s
  | _ + 1, .cls _ :: _, [] => none
  | fuel + 1, .cls p :: rs, c :: t => if p c then matchListF fuel rs t else none
  | fuel + 1, .seq a b :: rs, s => matchListF fuel (a :: b :: rs) s
  | fuel + 1, .alt a b :: rs, s =>
      match matchListF fuel (a :: rs) s with
      | some r => some r
      | none => matchListF fuel (b :: rs) s
  | fuel + 1, .opt a :: rs, s =>
      match matchListF fuel (a :: rs) s with
      | some r => some r
      | none => matchListF fuel rs s
  | fuel + 1, .star _ :: rs, [] => matchListF fuel rs []
  | fuel + 1, .star p :: rs, c :: t =>
      if p c then
        match matchListF fuel (.star p :: rs) t with
        | some r => some r
        | none => matchListF fuel rs (c :: t)
      else matchListF fuel rs (c :: t)

/-- The anchored matcher with sufficient fuel. -/
def matchList (l : List Regex) (s : List Char) : Option (List Char) :=
  matchListF (s.length + sizeL l + 1) l s

/-- Model of Go `regexp.FindAllString(s, -1)`: successive
non-overlapping leftmost matches.  At each position the anchored
matcher is tried; on failure the scan advances one character.  (An
empty match — impossible for the term regex — is recorded and the scan
advances one character, as Go does.)  The scan position always
advances, so `fuel > s.length` makes the out-of-fuel case
unreachable. -/
def findAllF : Nat → Regex → List Char → List (List Char)
  | 0, _, _ => []
  | _ + 1, r, [] =>
      match matchList [r] [] with
      | some _ => [[]]
      | none => []
  | fuel + 1, r, c :: t =>
      match matchList [r] (c :: t) with
      | some rest =>
          if rest.length < (c :: t).length then
            (c :: t).take ((c :: t).length - rest.length) :: findAllF fuel r rest
          else
            [] :: findAllF fuel r t
      | none => findAllF fuel r t

/-- `FindAllString` with sufficient fuel. -/
def findAll (r : Regex) (s : List Char) : List (List Char) :=
  findAllF (s.length + 1) r s

/-- The term regex `([+-]?\d*\.?\d*x\^?\d*|[-+]?\d*\.?\d+)` from
`ParsePolynomial`. -/
def termRegex : Regex :=
  .alt
    (.seq (.opt (.cls fun c => c == '+' || c == '-'))
      (.seq (.star Char.isDigit)
        (.seq (.opt (.cls fun c => c == '.'))
          (.seq (.star Char.isDigit)
            (.seq (.cls fun c => c == 'x')
              (.seq (.opt (.cls fun c => c == '^'))
                (.star Char.isDigit)))))))
    (.seq (.opt (.cls fun c => c == '-' || c == '+'))
      (.seq (.star Char.isDigit)
        (.seq (.opt (.cls fun c => c == '.'))
          (.seq (.cls Char.isDigit) (.star Char.isDigit)))))

/-! ### String helpers mirroring the Go standard library -/

/-- Numeric value of a digit string (base 10). -/
def digitsToNat (s : List Char) : Nat :=
  s.foldl (fun a c => a * 10 + (c.toNat - '0'.toNat)) 0

/-- Model of `strconv.Atoi`: an optional sign followed by at least one
digit, and nothing else. -/
def atoi (s : List Char) : Option Int :=
  match s with
  | '+' :: rest =>
      if rest ≠ [] ∧ rest.all Char.isDigit then some (digitsToNat rest) else none
  | '-' :: rest =>
      if rest ≠ [] ∧ rest.all Char.isDigit then some (-(digitsToNat rest : Int)) else none
  | _ =>
      if s ≠ [] ∧ s.all Char.isDigit then some (digitsToNat s) else none

/-- Magnitude part of `strconv.ParseFloat` on the decimal shapes
reachable from the term regex: digits, an optional point, more digits,
with at least one digit in total.  (Exponent and hex forms are
unreachable: the regex admits no `e`, `p` or hex characters.) -/
def parseFloatMag (s : List Char) : Option ℚ :=
  let intPart := s.takeWhile Char.isDigit
  let rest := s.dropWhile Char.isDigit
  match rest with
  | [] => if intPart = [] then none else some (digitsToNat intPart : ℚ)
  | '.' :: frac =>
      if frac.all Char.isDigit ∧ (intPart ≠ [] ∨ frac ≠ []) then
        some ((digitsToNat intPart : ℚ) + (digitsToNat frac : ℚ) / 10 ^ frac.length)
      else none
  | _ => none

/-- Model of `strconv.ParseFloat` (exact rational value). -/
def parseFloat (s : List Char) : Option ℚ :=
  match s with
  | '+' :: rest => parseFloatMag rest
  | '-' :: rest => (parseFloatMag rest).map Neg.neg
  | _ => parseFloatMag s

/-- Model of `strings.Split(s, "^")` (single-character separator). -/
def splitOnCaret : List Char → List (List Char)
  | [] => [[]]
  | c :: t =>
      if c = '^' then [] :: splitOnCaret t
      else
        match splitOnCaret t with
        | [] => [[c]]
        | seg :: rest => (c :: seg) :: rest

/-- Model of `strings.Split(s, "x^")` (two-character separator,
non-overlapping, leftmost). -/
def splitOnXCaret : List Char → List (List Char)
  | [] => [[]]
  | 'x' :: '^' :: t => [] :: splitOnXCaret t
  | c :: t =>
      match splitOnXCaret t with
      | [] => [[c]]
      | seg :: rest => (c :: seg) :: rest

/-- Model of `strings.Contains(s, "x^")`. -/
def containsXCaret : List Char → Bool
  | 'x' :: '^' :: _ => true
  | _ :: t => containsXCaret t
  | [] => false

/-- Model of `strings.TrimSuffix(s, "x")`. -/
def trimSuffixX (s : List Char) : List Char :=
  if s.getLast? = some 'x' then s.dropLast else s

/-- Go's default-coefficient rule: `"" | "+" ↦ "1"`, `"-" ↦ "-1"`. -/
def defaultCoeffStr (s : List Char) : List Char :=
  if s = [] ∨ s = ['+'] then ['1'] else if s = ['-'] then ['-', '1'] else s

/-! ### ParsePolynomial -/

/-- First pass of `ParsePolynomial`: the maximum degree.  Mirrors the
Go loop: an explicit `x^k` term must split on `"^"` into exactly two
parts whose second part `Atoi`s; a bare-variable term raises the
accumulator to at least 1. -/
def computeMaxDegree : List (List Char) → Int → Except PolyError Int
  | [], acc => .ok acc
  | t :: ts, acc =>
      if containsXCaret t then
        match splitOnCaret t with
        | [_, p1] =>
            match atoi p1 with
            | none => .error .invalidDegree
            | some d => computeMaxDegree ts (if d > acc then d else acc)
        | _ => .error .invalidTerm
      else if t.contains 'x' then
        computeMaxDegree ts (if acc < 1 then 1 else acc)
      else
        computeMaxDegree ts acc

/-- Second pass of `ParsePolynomial`: accumulate each term into its
slot.  `List.set` out of range is a no-op where Go would panic; that
path is unreachable because the first pass bounds every degree.
`d.toNat` likewise coincides with Go on every reachable degree (the
digits-only exponent is never negative). -/
def accumTerms : List (List Char) → List ℚ → Except PolyError (List ℚ)
  | [], coeffs => .ok coeffs
  | t :: ts, coeffs =>
      if t = [] then accumTerms ts coeffs
      else if containsXCaret t then
        let parts := splitOnXCaret t
        match parseFloat (defaultCoeffStr (parts.getD 0 [])) with
        | none => .error .invalidCoefficient
        | some coeff =>
            match atoi (parts.getD 1 []) with
            | none => .error .invalidDegree
            | some d =>
                accumTerms ts (coeffs.set d.toNat (coeffs.getD d.toNat 0 + coeff))
      else if t.contains 'x' then
        match parseFloat (defaultCoeffStr (trimSuffixX t)) with
        | none => .error .invalidCoefficient
        | some coeff => accumTerms ts (coeffs.set 1 (coeffs.getD 1 0 + coeff))
      else
        match parseFloat t with
        | none => .error .invalidConstant
        | some coeff => accumTerms ts (coeffs.set 0 (coeffs.getD 0 0 + coeff))

/-- Model of `strings.ReplaceAll(s, " ", "")`. -/
def stripSpaces (s : List Char) : List Char :=
  s.filter (fun c => c != ' ')

/-- `ParsePolynomial` on a character list: strip spaces, scan the term
regex, require the matched terms to reproduce the input exactly,
compute the degree, then accumulate coefficients (constant term at
index 0). -/
def parsePolyChars (polyStr : List Char) : Except PolyError (List ℚ) :=
  let cleaned := stripSpaces polyStr
  let terms := findAll termRegex cleaned
  if terms = [] then .error .invalidFormat
  else if terms.flatten ≠ cleaned then .error .unmatchedText
  else
    match computeMaxDegree terms 0 with
    | .error e => .error e
    | .ok maxDeg => accumTerms terms (List.replicate (maxDeg + 1).toNat 0)

/-- `ParsePolynomial` (string interface). -/
def ParsePolynomial (polyStr : String) : Except PolyError (List ℚ) :=
  parsePolyChars polyStr.data

/-! ### Root finding -/

open Complex in
/-- Model of `cmplx.Rect(r, θ)`. -/
noncomputable def Rect (r θ : ℝ) : ℂ :=
  ⟨r * Real.cos θ, r * Real.sin θ⟩

/-- Model of `evaluatePolynomial`: `result += complex(coeff, 0) *
cmplx.Pow(x, complex(float64(i), 0))` over the indexed coefficients
(`cmplx.Pow` at a natural exponent is the monoid power). -/
noncomputable def evaluatePolynomial (coefficients : List ℝ) (x : ℂ) : ℂ :=
  coefficients.enum.foldl (fun result ic => result + (ic.2 : ℂ) * x ^ ic.1) 0

/-- One Durand–Kerner round: every candidate is updated from the
previous round's full candidate list (`updated` is a fresh slice in
the Go code; `roots` is only read).  The inner loop multiplies
`roots[i] - roots[j]` for every `j ≠ i`, which the `if` realises by
contributing the factor 1 at `j = i`. -/
noncomputable def dkUpdate (coefficients : List ℝ) (roots : List ℂ) : List ℂ :=
  (List.range roots.length).map fun i =>
    let ri := roots.getD i 0
    ri - evaluatePolynomial coefficients ri /
      ((List.range roots.length).map fun j =>
        if j = i then 1 else ri - roots.getD j 0).prod

/-- Convergence test of the Go loop: `converged` stays `true` iff no
candidate moved by more than `1e-10` (absolute complex distance). -/
def dkConverged (roots updated : List ℂ) : Prop :=
  ∀ i < roots.length, Complex.abs (updated.getD i 0 - roots.getD i 0) ≤ 1e-10

open Classical in
/-- The bounded Durand–Kerner loop: at most `fuel` rounds; each round
computes the simultaneous update and, if every candidate moved by at
most `1e-10`, breaks — returning the pre-update candidates, exactly as
the Go `break` runs before `roots = updated`. -/
noncomputable def dkLoop (coefficients : List ℝ) : Nat → List ℂ → List ℂ
  | 0, roots => roots
  | fuel + 1, roots =>
      let updated := dkUpdate coefficients roots
      if dkConverged roots updated then roots
      else dkLoop coefficients fuel updated

/-- The initial candidates: `n` points equally spaced on the unit
circle, `cmplx.Rect(1, 2π·i/n)` for `i = 0..n-1`. -/
noncomputable def initialGuesses (n : Nat) : List ℂ :=
  (List.range n).map fun i : Nat => Rect 1 (2 * Real.pi * (i : ℝ) / (n : ℝ))

/-- Model of `findRootsDurandKerner`: degree `n = len - 1`; for
`n < 1` return no roots; otherwise run up to 1000 rounds from the
unit-circle initial candidates. -/
noncomputable def findRootsDurandKerner (coefficients : List ℝ) : List ℂ :=
  let n := coefficients.length - 1
  if n < 1 then []
  else dkLoop coefficients 1000 (initialGuesses n)

/-- Model of `FindRoots`: error on an empty vector; closed forms for
lengths 2 and 3 (the Go `switch` on `len(coefficients)` with index
accesses is rendered as the corresponding list patterns); every other
length goes to the Durand–Kerner branch. -/
noncomputable def FindRoots (coefficients : List ℝ) : Except PolyError (List ℂ) :=
  if coefficients = [] then .error .noCoefficients
  else
    match coefficients with
    | [c0, c1] =>
        if c1 = 0 then .error .invalidLinear
        else .ok [⟨-c0 / c1, 0⟩]
    | [c0, c1, c2] =>
        if c2 = 0 then .error .invalidQuadratic
        else
          let discriminant := c1 * c1 - 4 * c2 * c0
          if discriminant < 0 then
            let realPart := -c1 / (2 * c2)
            let imagPart := Real.sqrt (-discriminant) / (2 * c2)
            .ok [⟨realPart, imagPart⟩, ⟨realPart, -imagPart⟩]
          else
            let sqrtDisc := Real.sqrt discriminant
            .ok [⟨(-c1 + sqrtDisc) / (2 * c2), 0⟩, ⟨(-c1 - sqrtDisc) / (2 * c2), 0⟩]
    | _ => .ok (findRootsDurandKerner coefficients)

/-! ### Factorize -/

/-- Model of `fmt.Sprintf("%.2f", r)` in exact arithmetic: the value
is rounded to a whole number of hundredths and rendered with exactly
two decimals.  (On the half-to-even ties of binary floats the Go
output can differ; every value reached by the claims is exact.) -/
noncomputable def fmtTwoDec (r : ℝ) : String :=
  let m : Int := round (r * 100)
  (if m < 0 then "-" else "") ++
    Nat.repr (m.natAbs / 100) ++ "." ++
    (if m.natAbs % 100 < 10 then "0" else "") ++ Nat.repr (m.natAbs % 100)

/-- Model of `fmt.Sprintf("(x - %.2f)", root)`. -/
noncomputable def factorStr (root : ℝ) : String :=
  "(x - " ++ fmtTwoDec root ++ ")"

/-- Model of `Factorize`: empty check, degree cap at 2 (`len > 3`
rejected before the `switch`), linear and quadratic closed forms; the
quadratic branch refuses a negative discriminant and returns the
smaller root's factor first. -/
noncomputable def Factorize (coefficients : List ℝ) : Except PolyError (List String) :=
  if coefficients = [] then .error .noCoefficients
  else if 3 < coefficients.length then .error .unsupportedDegree
  else
    match coefficients with
    | [c0, c1] =>
        if c1 = 0 then .error .invalidLinear
        else .ok [factorStr (-c0 / c1)]
    | [c0, c1, c2] =>
        if c2 = 0 then .error .invalidQuadratic
        else
          let discriminant := c1 * c1 - 4 * c2 * c0
          if discriminant < 0 then .error .complexRoots
          else
            let sqrtDisc := Real.sqrt discriminant
            let r1 := (-c1 + sqrtDisc) / (2 * c2)
            let r2 := (-c1 - sqrtDisc) / (2 * c2)
            let p := if r1 > r2 then (r2, r1) else (r1, r2)
            .ok [factorStr p.1, factorStr p.2]
    | _ => .error .unsupportedDegreeOther

/-! ### Interpolate -/

/-- The Vandermonde matrix of `Interpolate`: `M[i][j] = x_i ^ j`
(`math.Pow` at a natural exponent, with `Pow(0, 0) = 1`). -/
noncomputable def vandermonde (points : List (ℝ × ℝ)) :
    Matrix (Fin points.length) (Fin points.length) ℝ :=
  fun i j => (points.get i).1 ^ (j : ℕ)

/-- The right-hand side of `Interpolate`: `b[i] = y_i`. -/
def rhsVec (points : List (ℝ × ℝ)) : Fin points.length → ℝ :=
  fun i => (points.get i).2

open Classical in
/-- Model of `Interpolate`.  The external direct solver
(gonum `SolveVec`, LU-based) is modelled as the exact linear solve: it
returns the unique solution of `M·c = b` when the Vandermonde matrix
is invertible and fails otherwise. -/
noncomputable def Interpolate (points : List (ℝ × ℝ)) : Except PolyError (List ℝ) :=
  if points = [] then .error .noPoints
  else if IsUnit (vandermonde points).det then
    .ok (List.ofFn fun i => (vandermonde points)⁻¹.mulVec (rhsVec points) i)
  else .error .singularSystem

/-! ### Spec-side definitions, used to state the parser claims -/

/-- Degree contributed by a single term, following the spec's rule:
the explicit exponent after `x^`, 1 for a bare-variable term, 0 for a
constant term. -/
def specTermDegree (t : List Char) : Int :=
  if containsXCaret t then (atoi ((splitOnCaret t).getD 1 [])).getD 0
  else if t.contains 'x' then 1
  else 0

/-- The spec's degree of a term list: the maximum of the explicit
exponents, of 1 when a bare-variable term appears, and of 0. -/
def specDegree (ts : List (List Char)) : Int :=
  (ts.map specTermDegree).foldl max 0

/-- A term with a malformed exponent: it contains `x^` but splitting
on `^` does not give exactly two parts with an `Atoi`-able second
part. -/
def malformedExponent (t : List Char) : Bool :=
  containsXCaret t &&
    (match splitOnCaret t with
     | [_, p1] => (atoi p1).isNone
     | _ => true)

/-! ### Helper lemmas -/

theorem mk_div_aux (a b d : ℝ) (hd : d ≠ 0) :
    (⟨a / d, b / d⟩ : ℂ) = ((a : ℂ) + Complex.I * (b : ℂ)) / (d : ℂ) := by
  rw [eq_div_iff (by exact_mod_cast hd)]
  apply Complex.ext <;> simp [div_mul_cancel₀, hd]

theorem fmtTwoDec_two : fmtTwoDec 2 = "2.00" := by
  unfold fmtTwoDec
  rw [show ((2:ℝ) * 100) = ((200 : Int) : ℝ) by norm_num, round_intCast]
  rfl

theorem fmtTwoDec_three : fmtTwoDec 3 = "3.00" := by
  unfold fmtTwoDec
  rw [show ((3:ℝ) * 100) = ((300 : Int) : ℝ) by norm_num, round_intCast]
  rfl

theorem foldl_max_ge : ∀ (l : List Int) (acc : Int), acc ≤ l.foldl max acc := by
  intro l
  induction l with
  | nil => exact fun acc => le_refl acc
  | cons a l ih => exact fun acc => le_trans (le_max_left acc a) (ih (max acc a))

theorem ite_gt_eq_max (a b : Int) : (if b > a then b else a) = max a b := by
  rcases le_or_lt b a with hle | hlt
  · rw [if_neg (not_lt.2 hle), max_eq_left hle]
  · rw [if_pos hlt, max_eq_right (le_of_lt hlt)]

theorem computeMaxDegree_ok : ∀ (ts : List (List Char)) (acc d : Int), 0 ≤ acc →
    computeMaxDegree ts acc = .ok d → d = (ts.map specTermDegree).foldl max acc := by
  intro ts
  induction ts with
  | nil => intro acc d _ h; simp [computeMaxDegree] at h; simp [h]
  | cons t ts ih =>
      intro acc d hacc h
      rw [computeMaxDegree] at h
      simp only [List.map_cons, List.foldl_cons]
      by_cases hxc : containsXCaret t
      · rw [if_pos hxc] at h
        split at h
        next head p1 heq =>
          split at h
          next hnone => simp at h
          next d0 hsome =>
            have hstd : specTermDegree t = d0 := by
              unfold specTermDegree
              rw [if_pos hxc, heq]
              simp [hsome]
            have h' : computeMaxDegree ts (max acc d0) = .ok d := by
              rwa [ite_gt_eq_max] at h
            rw [hstd]
            exact ih _ _ (le_trans hacc (le_max_left acc d0)) h'
        next => simp at h
      · rw [if_neg hxc] at h
        by_cases hx : t.contains 'x'
        · rw [if_pos hx] at h
          have hstd : specTermDegree t = 1 := by
            unfold specTermDegree
            rw [if_neg hxc, if_pos hx]
          have hone : (if acc < 1 then 1 else acc) = max acc 1 := by
            rcases le_or_lt 1 acc with hle | hlt
            · rw [if_neg (not_lt.2 hle), max_eq_left hle]
            · rw [if_pos hlt, max_eq_right (le_of_lt hlt)]
          have h' : computeMaxDegree ts (max acc 1) = .ok d := by rwa [hone] at h
          rw [hstd]
          exact ih _ _ (le_trans hacc (le_max_left acc 1)) h'
        · rw [if_neg hx] at h
          have hstd : specTermDegree t = 0 := by
            unfold specTermDegree
            rw [if_neg hxc, if_neg hx]
          rw [hstd]
          rw [max_eq_left hacc]
          exact ih _ _ hacc h

theorem accumTerms_length : ∀ (ts : List (List Char)) (coeffs out : List ℚ),
    accumTerms ts coeffs = .ok out → out.length = coeffs.length := by
  intro ts
  induction ts with
  | nil => intro coeffs out h; simp [accumTerms] at h; simp [h]
  | cons t ts ih =>
      intro coeffs out h
      rw [accumTerms] at h
      dsimp only at h
      split at h
      · exact ih _ _ h
      · split at h
        · split at h
          next => simp at h
          next coeff hc =>
            split at h
            next => simp at h
            next d hd => rw [ih _ _ h, List.length_set]
        · split at h
          · split at h
            next => simp at h
            next coeff hc => rw [ih _ _ h, List.length_set]
          · split at h
            next => simp at h
            next coeff hc => rw [ih _ _ h, List.length_set]

theorem parse_ok_length (s : List Char) (cs : List ℚ)
    (h : parsePolyChars s = .ok cs) :
    cs.length = (specDegree (findAll termRegex (stripSpaces s))).toNat + 1 := by
  rw [parsePolyChars] at h
  split at h
  · simp at h
  · split at h
    · simp at h
    · split at h
      next e heq => simp at h
      next maxDeg heq =>
        have hlen := accumTerms_length _ _ _ h
        rw [List.length_replicate] at hlen
        have hd := computeMaxDegree_ok _ _ _ (le_refl 0) heq
        have h0 : (0 : Int) ≤ maxDeg := by
          rw [hd]
          exact foldl_max_ge _ 0
        rw [hlen, show specDegree (findAll termRegex (stripSpaces s)) = maxDeg from hd.symm]
        omega

theorem parse_noTerms (s : List Char)
    (h : findAll termRegex (stripSpaces s) = []) :
    parsePolyChars s = .error .invalidFormat := by
  rw [parsePolyChars]
  rw [if_pos h]

theorem parse_leftover (s : List Char)
    (h : (findAll termRegex (stripSpaces s)).flatten ≠ stripSpaces s) :
    ∃ e, parsePolyChars s = .error e ∧ e.isFormat := by
  rw [parsePolyChars]
  by_cases h0 : findAll termRegex (stripSpaces s) = []
  · exact ⟨.invalidFormat, by rw [if_pos h0], rfl⟩
  · exact ⟨.unmatchedText, by rw [if_neg h0, if_pos h], rfl⟩

theorem computeMaxDegree_malformed :
    ∀ (ts : List (List Char)) (acc : Int) (t : List Char), t ∈ ts →
      malformedExponent t →
      ∃ e, computeMaxDegree ts acc = .error e ∧ e.isFormat := by
  intro ts
  induction ts with
  | nil => intro acc t h; simp at h
  | cons u ts ih =>
      intro acc t hmem hmal
      rw [computeMaxDegree]
      rcases List.mem_cons.1 hmem with rfl | hmem'
      · have hmal' := hmal
        unfold malformedExponent at hmal'
        rw [Bool.and_eq_true] at hmal'
        rw [if_pos hmal'.1]
        split
        next head p1 heq =>
          have hnone : atoi p1 = none := by
            have h2 := hmal'.2
            rw [heq] at h2
            exact Option.isNone_iff_eq_none.1 h2
          rw [hnone]
          exact ⟨.invalidDegree, rfl, rfl⟩
        next => exact ⟨.invalidTerm, rfl, rfl⟩
      · by_cases hxc : containsXCaret u
        · rw [if_pos hxc]
          split
          next head p1 heq =>
            rcases ha : atoi p1 with _ | d0
            · exact ⟨.invalidDegree, rfl, rfl⟩
            · exact ih _ _ hmem' hmal
          next => exact ⟨.invalidTerm, rfl, rfl⟩
        · rw [if_neg hxc]
          by_cases hx : u.contains 'x'
          · rw [if_pos hx]
            exact ih _ _ hmem' hmal
          · rw [if_neg hx]
            exact ih _ _ hmem' hmal

theorem parse_malformed (s : List Char) (t : List Char)
    (hmem : t ∈ findAll termRegex (stripSpaces s))
    (hmal : malformedExponent t) :
    ∃ e, parsePolyChars s = .error e ∧ e.isFormat := by
  rw [parsePolyChars]
  by_cases h0 : findAll termRegex (stripSpaces s) = []
  · exact ⟨.invalidFormat, by rw [if_pos h0], rfl⟩
  · rw [if_neg h0]
    by_cases h1 : (findAll termRegex (stripSpaces s)).flatten ≠ stripSpaces s
    · exact ⟨.unmatchedText, by rw [if_pos h1], rfl⟩
    · rw [if_neg h1]
      obtain ⟨e, he, hf⟩ := computeMaxDegree_malformed _ 0 t hmem hmal
      exact ⟨e, by rw [he], hf⟩

theorem foldl_enumFrom_eq_sum (f : ℕ → ℝ → ℂ) :
    ∀ (cs : List ℝ) (k : ℕ) (init : ℂ),
      (cs.enumFrom k).foldl (fun r ic => r + f ic.1 ic.2) init
        = init + ∑ i ∈ Finset.range cs.length, f (k + i) (cs.getD i 0) := by
  intro cs
  induction cs with
  | nil => intro k init; simp
  | cons c cs ih =>
      intro k init
      simp only [List.enumFrom_cons, List.foldl_cons, List.length_cons]
      rw [ih (k + 1) (init + f k c), Finset.sum_range_succ']
      simp only [List.getD_cons_succ, List.getD_cons_zero, Nat.add_zero]
      rw [add_assoc]
      congr 1
      rw [add_comm]
      congr 1
      apply Finset.sum_congr rfl
      intro i _
      congr 1
      omega

theorem evalPoly_eq_sum (cs : List ℝ) (x : ℂ) :
    evaluatePolynomial cs x = ∑ i ∈ Finset.range cs.length, (cs.getD i 0 : ℂ) * x ^ i := by
  unfold evaluatePolynomial
  rw [show cs.enum = cs.enumFrom 0 from rfl,
      foldl_enumFrom_eq_sum (fun i c => (c : ℂ) * x ^ i) cs 0 0]
  simp

theorem list_prod_range (n : ℕ) (g : ℕ → ℂ) :
    ((List.range n).map g).prod = ∏ j ∈ Finset.range n, g j := by
  induction n with
  | zero => simp
  | succ m ih => rw [List.range_succ, List.map_append, List.prod_append,
      Finset.prod_range_succ, ih]; simp

theorem dkUpdate_getD (cs : List ℝ) (roots : List ℂ) (i : ℕ) (h : i < roots.length) :
    (dkUpdate cs roots).getD i 0 =
      roots.getD i 0 - evaluatePolynomial cs (roots.getD i 0) /
        ∏ j ∈ (Finset.range roots.length).erase i, (roots.getD i 0 - roots.getD j 0) := by
  unfold dkUpdate
  rw [List.getD_eq_getElem?_getD]
  simp only [List.getElem?_map, List.getElem?_range, h, if_pos]
  simp only [Option.map_some', Option.getD_some]
  congr 1
  rw [list_prod_range]
  rw [← Finset.prod_erase (Finset.range roots.length)
        (by simp : (fun j => if j = i then 1 else roots.getD i 0 - roots.getD j 0) i = 1)]
  congr 1
  apply Finset.prod_congr rfl
  intro j hj
  rw [if_neg (Finset.ne_of_mem_erase hj)]

theorem initialGuesses_getD (n i : ℕ) (h : i < n) :
    (initialGuesses n).getD i 0 = Rect 1 (2 * Real.pi * (i : ℝ) / (n : ℝ)) := by
  unfold initialGuesses
  rw [List.getD_eq_getElem?_getD, List.getElem?_map, List.getElem?_range h]
  rfl

theorem Rect_one_exp (θ : ℝ) : Rect 1 θ = Complex.exp ((θ : ℂ) * Complex.I) := by
  apply Complex.ext
  · rw [Complex.exp_ofReal_mul_I_re]; simp [Rect]
  · rw [Complex.exp_ofReal_mul_I_im]; simp [Rect]

theorem Rect_one_abs (θ : ℝ) : Complex.abs (Rect 1 θ) = 1 := by
  rw [Rect_one_exp, Complex.abs_exp_ofReal_mul_I]

theorem findRoots_dispatch (cs : List ℝ) (h : 4 ≤ cs.length) :
    FindRoots cs = .ok (dkLoop cs 1000 (initialGuesses (cs.length - 1))) := by
  have h1 : FindRoots cs = .ok (findRootsDurandKerner cs) := by
    rcases cs with _ | ⟨a, _ | ⟨b, _ | ⟨c, _ | ⟨d, t⟩⟩⟩⟩
    · simp at h
    · simp at h
    · simp at h
    · simp at h
    · rfl
  rw [h1, findRootsDurandKerner, if_neg (by omega)]

theorem dkLoop_iterate (cs : List ℝ) :
    ∀ (fuel : ℕ) (roots : List ℂ),
      ∃ k ≤ fuel, dkLoop cs fuel roots = (dkUpdate cs)^[k] roots := by
  intro fuel
  induction fuel with
  | zero => exact fun roots => ⟨0, le_refl 0, rfl⟩
  | succ n ih =>
      intro roots
      by_cases hc : dkConverged roots (dkUpdate cs roots)
      · exact ⟨0, Nat.zero_le _, by rw [dkLoop, if_pos hc]; rfl⟩
      · obtain ⟨k, hk, he⟩ := ih (dkUpdate cs roots)
        exact ⟨k + 1, Nat.succ_le_succ hk,
          by rw [dkLoop, if_neg hc, Function.iterate_succ_apply]; exact he⟩

theorem dkLoop_early_stop (cs : List ℝ) (fuel : ℕ) (roots : List ℂ)
    (h : ∀ i < roots.length,
      Complex.abs ((dkUpdate cs roots).getD i 0 - roots.getD i 0) < 1e-10) :
    dkLoop cs (fuel + 1) roots = roots := by
  rw [dkLoop, if_pos]
  exact fun i hi => le_of_lt (h i hi)

theorem parse_example_five : ParsePolynomial "5" = .ok [5] := by
  have hterms : findAll termRegex (stripSpaces "5".data) = [['5']] := by decide
  rw [ParsePolynomial, parsePolyChars, hterms]
  rw [if_neg (by decide), if_neg (by decide)]
  rw [show computeMaxDegree [['5']] 0 = .ok 0 by decide]
  show accumTerms _ (List.replicate 1 0) = _
  simp +decide [accumTerms, defaultCoeffStr, parseFloat, parseFloatMag, atoi,
    digitsToNat, splitOnXCaret, containsXCaret, trimSuffixX, splitOnCaret,
    List.replicate]

theorem parse_example_negx : ParsePolynomial "-x" = .ok [0, -1] := by
  have hterms : findAll termRegex (stripSpaces "-x".data) = [['-', 'x']] := by decide
  rw [ParsePolynomial, parsePolyChars, hterms]
  rw [if_neg (by decide), if_neg (by decide)]
  rw [show computeMaxDegree [['-', 'x']] 0 = .ok 1 by decide]
  show accumTerms _ (List.replicate 2 0) = _
  simp +decide [accumTerms, defaultCoeffStr, parseFloat, parseFloatMag, atoi,
    digitsToNat, splitOnXCaret, containsXCaret, trimSuffixX, splitOnCaret,
    List.replicate]

theorem parse_example_linear : ParsePolynomial "2x+1" = .ok [1, 2] := by
  have hterms : findAll termRegex (stripSpaces "2x+1".data) =
      [['2', 'x'], ['+', '1']] := by decide
  rw [ParsePolynomial, parsePolyChars, hterms]
  rw [if_neg (by decide), if_neg (by decide)]
  rw [show computeMaxDegree [['2', 'x'], ['+', '1']] 0 = .ok 1 by decide]
  show accumTerms _ (List.replicate 2 0) = _
  simp +decide [accumTerms, defaultCoeffStr, parseFloat, parseFloatMag, atoi,
    digitsToNat, splitOnXCaret, containsXCaret, trimSuffixX, splitOnCaret,
    List.replicate]

theorem parse_example_quadratic : ParsePolynomial "x^2 - 5x + 6" = .ok [6, -5, 1] := by
  have hterms : findAll termRegex (stripSpaces "x^2 - 5x + 6".data) =
      [['x', '^', '2'], ['-', '5', 'x'], ['+', '6']] := by decide
  rw [ParsePolynomial, parsePolyChars, hterms]
  rw [if_neg (by decide), if_neg (by decide)]
  rw [show computeMaxDegree [['x', '^', '2'], ['-', '5', 'x'], ['+', '6']] 0 =
      .ok 2 by decide]
  show accumTerms _ (List.replicate 3 0) = _
  simp +decide [accumTerms, defaultCoeffStr, parseFloat, parseFloatMag, atoi,
    digitsToNat, splitOnXCaret, containsXCaret, trimSuffixX, splitOnCaret,
    List.replicate]

theorem parse_example_accumulate : ParsePolynomial "x + 2x" = .ok [0, 3] := by
  have hterms : findAll termRegex (stripSpaces "x + 2x".data) =
      [['x'], ['+', '2', 'x']] := by decide
  rw [ParsePolynomial, parsePolyChars, hterms]
  rw [if_neg (by decide), if_neg (by decide)]
  rw [show computeMaxDegree [['x'], ['+', '2', 'x']] 0 = .ok 1 by decide]
  show accumTerms _ (List.replicate 2 0) = _
  simp +decide [accumTerms, defaultCoeffStr, parseFloat, parseFloatMag, atoi,
    digitsToNat, splitOnXCaret, containsXCaret, trimSuffixX, splitOnCaret,
    List.replicate]
  norm_num

/-! ### Claim theorems -/

/-- C1: for every length-3 coefficient vector `[c0, c1, c2]` with
`c2 ≠ 0`, `FindRoots` computes the discriminant `D = c1² − 4·c2·c0`
and returns: if `D < 0` the conjugate pair `(−c1 ± i·sqrt(−D))/(2·c2)`
(`+` first), and if `D ≥ 0` the two real roots
`(−c1 ± sqrt(D))/(2·c2)` (both real-cast, hence with zero imaginary
part), `+` root first then `−` root. -/
theorem c1_findRoots_quadratic (c0 c1 c2 : ℝ) (hc2 : c2 ≠ 0) :
    (c1 ^ 2 - 4 * c2 * c0 < 0 →
      FindRoots [c0, c1, c2] = .ok
        [((-c1 : ℂ) + Complex.I * (Real.sqrt (-(c1 ^ 2 - 4 * c2 * c0)) : ℝ)) /
            ((2 * c2 : ℝ) : ℂ),
         ((-c1 : ℂ) - Complex.I * (Real.sqrt (-(c1 ^ 2 - 4 * c2 * c0)) : ℝ)) /
            ((2 * c2 : ℝ) : ℂ)]) ∧
    (0 ≤ c1 ^ 2 - 4 * c2 * c0 →
      FindRoots [c0, c1, c2] = .ok
        [(((-c1 + Real.sqrt (c1 ^ 2 - 4 * c2 * c0)) / (2 * c2) : ℝ) : ℂ),
         (((-c1 - Real.sqrt (c1 ^ 2 - 4 * c2 * c0)) / (2 * c2) : ℝ) : ℂ)]) := by
  have hd : (2 : ℝ) * c2 ≠ 0 := mul_ne_zero two_ne_zero hc2
  have hsq : c1 * c1 = c1 ^ 2 := (sq c1).symm
  constructor
  · intro hD
    have hD' : c1 * c1 - 4 * c2 * c0 < 0 := by rw [hsq]; exact hD
    simp only [FindRoots]
    rw [if_neg (by simp), if_neg hc2, if_pos hD']
    rw [show -(c1 * c1 - 4 * c2 * c0) = -(c1 ^ 2 - 4 * c2 * c0) by ring]
    congr 1
    have h1 := mk_div_aux (-c1) (Real.sqrt (-(c1 ^ 2 - 4 * c2 * c0))) (2 * c2) hd
    have h2 := mk_div_aux (-c1) (-Real.sqrt (-(c1 ^ 2 - 4 * c2 * c0))) (2 * c2) hd
    simp only [neg_div] at h1 h2 ⊢
    rw [h1, h2]
    push_cast
    ring_nf
  · intro hD
    have hD' : ¬ (c1 * c1 - 4 * c2 * c0 < 0) := by rw [hsq]; exact not_lt.2 hD
    simp only [FindRoots]
    rw [if_neg (by simp), if_neg hc2, if_neg hD']
    rw [hsq]
    rfl

/-- Witness for C1: `x² + 1` has `c2 = 1 ≠ 0` and `D = −4 < 0`, and
its roots evaluate to `i` and `−i` (the spec's
`find_roots([1, 0, 1]) = {0+i, 0−i}` example). -/
theorem c1_witness : FindRoots [(1 : ℝ), 0, 1] = .ok [Complex.I, -Complex.I] := by
  have h := (c1_findRoots_quadratic 1 0 1 one_ne_zero).1 (by norm_num)
  rw [h]
  have h4 : Real.sqrt (-((0 : ℝ) ^ 2 - 4 * 1 * 1)) = 2 := by
    rw [show (-((0 : ℝ) ^ 2 - 4 * 1 * 1)) = 2 ^ 2 by norm_num,
      Real.sqrt_sq (by norm_num : (0 : ℝ) ≤ 2)]
  rw [h4]
  norm_num
  ring

/-- C2: for degree ≥ 3 the root solver dispatches to the
Durand–Kerner iteration: the initial candidates are the `n` points
`Rect(1, 2π·i/n)` on the unit circle (each of absolute value 1), and
one round maps every candidate `r_i`, read from the previous round's
full list, to `r_i − P(r_i) / Π_{j≠i}(r_i − r_j)`, where `P` is the
polynomial evaluated at the complex point from its real
coefficients. -/
theorem c2_durand_kerner_method :
    (∀ cs : List ℝ, 4 ≤ cs.length →
      FindRoots cs = .ok (dkLoop cs 1000 (initialGuesses (cs.length - 1)))) ∧
    (∀ n : ℕ, (initialGuesses n).length = n) ∧
    (∀ n i : ℕ, i < n →
      (initialGuesses n).getD i 0 =
        Complex.exp (((2 * Real.pi * (i : ℝ) / (n : ℝ) : ℝ) : ℂ) * Complex.I) ∧
      Complex.abs ((initialGuesses n).getD i 0) = 1) ∧
    (∀ (cs : List ℝ) (roots : List ℂ), (dkUpdate cs roots).length = roots.length) ∧
    (∀ (cs : List ℝ) (roots : List ℂ) (i : ℕ), i < roots.length →
      (dkUpdate cs roots).getD i 0 =
        roots.getD i 0 - evaluatePolynomial cs (roots.getD i 0) /
          ∏ j ∈ (Finset.range roots.length).erase i,
            (roots.getD i 0 - roots.getD j 0)) ∧
    (∀ (cs : List ℝ) (x : ℂ),
      evaluatePolynomial cs x =
        ∑ i ∈ Finset.range cs.length, ((cs.getD i 0 : ℝ) : ℂ) * x ^ i) := by
  refine ⟨findRoots_dispatch, fun n => by simp [initialGuesses], fun n i h => ?_,
    fun cs roots => by simp [dkUpdate], dkUpdate_getD, evalPoly_eq_sum⟩
  rw [initialGuesses_getD n i h]
  exact ⟨Rect_one_exp _, Rect_one_abs _⟩

/-- Witness for C2: the cubic `x³ − 6x² + 11x − 6` (length 4) goes to
the iterative branch; the three initial candidates for `n = 3`; the
first candidate's update formula on a singleton list. -/
theorem c2_witness :
    FindRoots [(-6 : ℝ), 11, -6, 1] =
      .ok (dkLoop [(-6 : ℝ), 11, -6, 1] 1000
        (initialGuesses ([(-6 : ℝ), 11, -6, 1].length - 1))) ∧
    (initialGuesses 3).length = 3 ∧
    Complex.abs ((initialGuesses 3).getD 0 0) = 1 := by
  exact ⟨c2_durand_kerner_method.1 [(-6 : ℝ), 11, -6, 1] (by norm_num),
    c2_durand_kerner_method.2.1 3,
    (c2_durand_kerner_method.2.2.1 3 0 (by norm_num)).2⟩

/-- C3: for length ≥ 4 the solver never errors and performs at most
1000 rounds — the result is some `k ≤ 1000`-fold simultaneous update
of the initial candidates — and the loop stops early, returning the
current candidates, as soon as every candidate would move by less than
`1e-10` in absolute complex distance. -/
theorem c3_iteration_bound :
    (∀ cs : List ℝ, 4 ≤ cs.length →
      ∃ k ≤ 1000,
        FindRoots cs = .ok ((dkUpdate cs)^[k] (initialGuesses (cs.length - 1)))) ∧
    (∀ (cs : List ℝ) (fuel : ℕ) (roots : List ℂ),
      (∀ i < roots.length,
        Complex.abs ((dkUpdate cs roots).getD i 0 - roots.getD i 0) < 1e-10) →
      dkLoop cs (fuel + 1) roots = roots) := by
  constructor
  · intro cs h
    obtain ⟨k, hk, he⟩ := dkLoop_iterate cs 1000 (initialGuesses (cs.length - 1))
    exact ⟨k, hk, by rw [findRoots_dispatch cs h, he]⟩
  · exact dkLoop_early_stop

/-- Witness for C3: the cubic test vector reaches the bounded loop,
and a loop started on an empty candidate list (every candidate —
vacuously — moves by less than `1e-10`) stops at once. -/
theorem c3_witness :
    (∃ k ≤ 1000,
      FindRoots [(-6 : ℝ), 11, -6, 1] =
        .ok ((dkUpdate [(-6 : ℝ), 11, -6, 1])^[k]
          (initialGuesses ([(-6 : ℝ), 11, -6, 1].length - 1)))) ∧
    dkLoop [(0 : ℝ), 0, 0, 0] 1 [] = [] := by
  exact ⟨c3_iteration_bound.1 [(-6 : ℝ), 11, -6, 1] (by norm_num),
    c3_iteration_bound.2 [(0 : ℝ), 0, 0, 0] 0 []
      (by intro i hi; exact absurd hi (by simp))⟩

/-- C4: a successful parse returns a vector of length degree + 1,
where the degree is the maximum over the explicit exponents, 1 when a
bare-variable term appears and 0 otherwise; terms without a numeric
magnitude contribute ±1, and same-degree terms accumulate by
addition — `parse("5") = [5]`, `parse("-x") = [0, -1]`,
`parse("2x+1") = [1, 2]`, `parse("x^2 - 5x + 6") = [6, -5, 1]`, and
`parse("x + 2x") = [0, 3]` (coefficient 3 at degree 1). -/
theorem c4_parse_coefficients :
    (∀ (s : String) (cs : List ℚ), ParsePolynomial s = .ok cs →
      cs.length = (specDegree (findAll termRegex (stripSpaces s.data))).toNat + 1) ∧
    ParsePolynomial "5" = .ok [5] ∧
    ParsePolynomial "-x" = .ok [0, -1] ∧
    ParsePolynomial "2x+1" = .ok [1, 2] ∧
    ParsePolynomial "x^2 - 5x + 6" = .ok [6, -5, 1] ∧
    ParsePolynomial "x + 2x" = .ok [0, 3] :=
  ⟨fun s cs h => parse_ok_length s.data cs h, parse_example_five, parse_example_negx,
    parse_example_linear, parse_example_quadratic, parse_example_accumulate⟩

/-- Witness for C4: the length/degree law evaluated on
`"x^2 - 5x + 6"`, whose parse succeeds with 3 = degree 2 + 1
coefficients. -/
theorem c4_witness :
    ([(6 : ℚ), -5, 1] : List ℚ).length =
      (specDegree (findAll termRegex (stripSpaces "x^2 - 5x + 6".data))).toNat + 1 :=
  c4_parse_coefficients.1 "x^2 - 5x + 6" [6, -5, 1]
    c4_parse_coefficients.2.2.2.2.1

/-- C5: parse fails with a FormatError-class error whenever the
matched terms do not reproduce the whitespace-stripped input exactly,
whenever no terms are found, and whenever a term has a malformed
exponent; in particular `parse("")` and `parse("x^")` fail with format
errors. -/
theorem c5_parse_format_errors :
    (∀ s : String, findAll termRegex (stripSpaces s.data) = [] →
      ParsePolynomial s = .error .invalidFormat) ∧
    (∀ s : String, (findAll termRegex (stripSpaces s.data)).flatten ≠ stripSpaces s.data →
      ∃ e, ParsePolynomial s = .error e ∧ e.isFormat) ∧
    (∀ (s : String) (t : List Char), t ∈ findAll termRegex (stripSpaces s.data) →
      malformedExponent t →
      ∃ e, ParsePolynomial s = .error e ∧ e.isFormat) ∧
    (ParsePolynomial "" = .error .invalidFormat ∧ PolyError.invalidFormat.isFormat) ∧
    (ParsePolynomial "x^" = .error .invalidDegree ∧ PolyError.invalidDegree.isFormat) :=
  ⟨fun s h => parse_noTerms s.data h, fun s h => parse_leftover s.data h,
    fun s t hm hmal => parse_malformed s.data t hm hmal,
    ⟨by decide, rfl⟩, ⟨by decide, rfl⟩⟩

/-- Witness for C5: no terms in `"!"`; leftover text in `"^2"` (the
matched terms are just `"2"`); malformed exponent in `"x^"`. -/
theorem c5_witness :
    ParsePolynomial "!" = .error .invalidFormat ∧
    (∃ e, ParsePolynomial "^2" = .error e ∧ e.isFormat) ∧
    (∃ e, ParsePolynomial "x^" = .error e ∧ e.isFormat) :=
  ⟨c5_parse_format_errors.1 "!" (by decide),
    c5_parse_format_errors.2.1 "^2" (by decide),
    c5_parse_format_errors.2.2.1 "x^" ['x', '^'] (by decide) (by decide)⟩

/-- C6: for `[c0, c1]` with `c1 ≠ 0`, `Factorize` returns the one
factor string for the root `−c0/c1` rendered to two decimal places;
for `[c0, c1, c2]` with `c2 ≠ 0` and nonnegative discriminant it
returns the two real roots' factor strings in ascending order; in
particular `factorize([-4, 2]) = ["(x - 2.00)"]` and
`factorize([6, -5, 1]) = ["(x - 2.00)", "(x - 3.00)"]`. -/
theorem c6_factorize_values :
    (∀ c0 c1 : ℝ, c1 ≠ 0 → Factorize [c0, c1] = .ok [factorStr (-c0 / c1)]) ∧
    (∀ c0 c1 c2 : ℝ, c2 ≠ 0 → 0 ≤ c1 ^ 2 - 4 * c2 * c0 →
      Factorize [c0, c1, c2] = .ok
        [factorStr (min ((-c1 + Real.sqrt (c1 ^ 2 - 4 * c2 * c0)) / (2 * c2))
                        ((-c1 - Real.sqrt (c1 ^ 2 - 4 * c2 * c0)) / (2 * c2))),
         factorStr (max ((-c1 + Real.sqrt (c1 ^ 2 - 4 * c2 * c0)) / (2 * c2))
                        ((-c1 - Real.sqrt (c1 ^ 2 - 4 * c2 * c0)) / (2 * c2)))]) ∧
    Factorize [-4, 2] = .ok ["(x - 2.00)"] ∧
    Factorize [6, -5, 1] = .ok ["(x - 2.00)", "(x - 3.00)"] := by
  have hlin : ∀ c0 c1 : ℝ, c1 ≠ 0 → Factorize [c0, c1] = .ok [factorStr (-c0 / c1)] := by
    intro c0 c1 h
    simp [Factorize, h]
  have hquad : ∀ c0 c1 c2 : ℝ, c2 ≠ 0 → 0 ≤ c1 ^ 2 - 4 * c2 * c0 →
      Factorize [c0, c1, c2] = .ok
        [factorStr (min ((-c1 + Real.sqrt (c1 ^ 2 - 4 * c2 * c0)) / (2 * c2))
                        ((-c1 - Real.sqrt (c1 ^ 2 - 4 * c2 * c0)) / (2 * c2))),
         factorStr (max ((-c1 + Real.sqrt (c1 ^ 2 - 4 * c2 * c0)) / (2 * c2))
                        ((-c1 - Real.sqrt (c1 ^ 2 - 4 * c2 * c0)) / (2 * c2)))] := by
    intro c0 c1 c2 hc2 hD
    have hsq : c1 * c1 = c1 ^ 2 := (sq c1).symm
    have hD' : ¬ (c1 * c1 - 4 * c2 * c0 < 0) := by rw [hsq]; exact not_lt.2 hD
    simp only [Factorize]
    rw [if_neg (by simp), if_neg (by simp), if_neg hc2, if_neg hD']
    rw [hsq]
    set r1 := (-c1 + Real.sqrt (c1 ^ 2 - 4 * c2 * c0)) / (2 * c2) with hr1
    set r2 := (-c1 - Real.sqrt (c1 ^ 2 - 4 * c2 * c0)) / (2 * c2) with hr2
    by_cases hgt : r1 > r2
    · rw [if_pos hgt, min_eq_right (le_of_lt hgt), max_eq_left (le_of_lt hgt)]
    · rw [if_neg hgt, min_eq_left (not_lt.1 hgt), max_eq_right (not_lt.1 hgt)]
  refine ⟨hlin, hquad, ?_, ?_⟩
  · rw [hlin (-4) 2 two_ne_zero, show (-(-4 : ℝ) / 2) = 2 by norm_num]
    rw [factorStr, fmtTwoDec_two]
    rfl
  · rw [hquad 6 (-5) 1 one_ne_zero (by norm_num),
      show (((-5 : ℝ)) ^ 2 - 4 * 1 * 6) = 1 by norm_num, Real.sqrt_one]
    rw [show ((- (-5 : ℝ) + 1) / (2 * 1)) = 3 by norm_num,
      show ((- (-5 : ℝ) - 1) / (2 * 1)) = 2 by norm_num]
    rw [min_eq_right (by norm_num : (2 : ℝ) ≤ 3), max_eq_left (by norm_num : (2 : ℝ) ≤ 3)]
    rw [factorStr, factorStr, fmtTwoDec_two, fmtTwoDec_three]
    rfl

/-- Witness for C6: the linear branch at `2x − 4` (`c1 = 2 ≠ 0`) and
the quadratic branch at `x² − 5x + 6` (`c2 = 1 ≠ 0`, `D = 1 ≥ 0`). -/
theorem c6_witness :
    Factorize [(-4 : ℝ), 2] = .ok [factorStr (-(-4 : ℝ) / 2)] ∧
    Factorize [(6 : ℝ), -5, 1] = .ok
      [factorStr (min ((-(-5 : ℝ) + Real.sqrt ((-5 : ℝ) ^ 2 - 4 * 1 * 6)) / (2 * 1))
                      ((-(-5 : ℝ) - Real.sqrt ((-5 : ℝ) ^ 2 - 4 * 1 * 6)) / (2 * 1))),
       factorStr (max ((-(-5 : ℝ) + Real.sqrt ((-5 : ℝ) ^ 2 - 4 * 1 * 6)) / (2 * 1))
                      ((-(-5 : ℝ) - Real.sqrt ((-5 : ℝ) ^ 2 - 4 * 1 * 6)) / (2 * 1)))] :=
  ⟨c6_factorize_values.1 (-4) 2 two_ne_zero,
    c6_factorize_values.2.1 6 (-5) 1 one_ne_zero (by norm_num)⟩

/-- C7: `Factorize` fails with the empty-input error on `[]`, with the
unsupported-degree error when the length exceeds 3, with the
degenerate-coefficient error when the relevant leading coefficient is
zero, and with the complex-root error when the quadratic discriminant
is negative. -/
theorem c7_factorize_errors :
    Factorize ([] : List ℝ) = .error .noCoefficients ∧
    (∀ cs : List ℝ, 3 < cs.length → Factorize cs = .error .unsupportedDegree) ∧
    (∀ c0 c1 : ℝ, c1 = 0 → Factorize [c0, c1] = .error .invalidLinear) ∧
    (∀ c0 c1 c2 : ℝ, c2 = 0 → Factorize [c0, c1, c2] = .error .invalidQuadratic) ∧
    (∀ c0 c1 c2 : ℝ, c2 ≠ 0 → c1 ^ 2 - 4 * c2 * c0 < 0 →
      Factorize [c0, c1, c2] = .error .complexRoots) := by
  refine ⟨by simp [Factorize], ?_, ?_, ?_, ?_⟩
  · intro cs h
    rcases cs with _ | ⟨a, _ | ⟨b, _ | ⟨c, _ | ⟨d, t⟩⟩⟩⟩
    · simp at h
    · simp at h
    · simp at h
    · simp at h
    · rw [Factorize, if_neg (by simp), if_pos (by simpa using h)]
      all_goals simp
  · intro c0 c1 h
    subst h
    simp [Factorize]
  · intro c0 c1 c2 h
    subst h
    simp [Factorize]
  · intro c0 c1 c2 hc2 hD
    have hD' : c1 * c1 - 4 * c2 * c0 < 0 := by
      rw [sq c1] at hD
      exact hD
    simp only [Factorize]
    rw [if_neg (by simp), if_neg (by simp), if_neg hc2, if_pos hD']

/-- Witness for C7: `factorize([1, 0, 1])` (discriminant −4 < 0) fails
with the complex-root error and `factorize([-6, 11, -6, 1])` (length
4 > 3) fails with the unsupported-degree error. -/
theorem c7_witness :
    Factorize [(1 : ℝ), 0, 1] = .error .complexRoots ∧
    Factorize [(-6 : ℝ), 11, -6, 1] = .error .unsupportedDegree :=
  ⟨c7_factorize_errors.2.2.2.2 1 0 1 one_ne_zero (by norm_num),
    c7_factorize_errors.2.1 [(-6 : ℝ), 11, -6, 1] (by norm_num)⟩

/-- C8: `Interpolate` builds the Vandermonde system `M[i][j] = x_i^j`,
`b[i] = y_i`; on `n ≥ 1` points with invertible matrix it returns the
length-`n` solution of `M·c = b`; it fails with the empty-input error
on zero points and with the singular-system error when the matrix is
singular — in particular when two points share an `x` value — and
`interpolate([(0,1),(1,3)]) = [1, 2]`. -/
theorem c8_interpolate :
    Interpolate [] = .error .noPoints ∧
    (∀ points : List (ℝ × ℝ), points ≠ [] → IsUnit (vandermonde points).det →
      Interpolate points =
          .ok (List.ofFn fun i => (vandermonde points)⁻¹.mulVec (rhsVec points) i) ∧
        (List.ofFn fun i => (vandermonde points)⁻¹.mulVec (rhsVec points) i).length =
          points.length ∧
        (vandermonde points).mulVec ((vandermonde points)⁻¹.mulVec (rhsVec points)) =
          rhsVec points) ∧
    (∀ points : List (ℝ × ℝ), points ≠ [] → ¬ IsUnit (vandermonde points).det →
      Interpolate points = .error .singularSystem) ∧
    (∀ (points : List (ℝ × ℝ)) (i j : Fin points.length), i ≠ j →
      (points.get i).1 = (points.get j).1 →
      Interpolate points = .error .singularSystem) ∧
    Interpolate [((0 : ℝ), (1 : ℝ)), (1, 3)] = .ok [1, 2] := by
  refine ⟨by rw [Interpolate, if_pos rfl], ?_, ?_, ?_, ?_⟩
  · intro points hne h
    refine ⟨by rw [Interpolate, if_neg hne, if_pos h], by simp, ?_⟩
    rw [Matrix.mulVec_mulVec, Matrix.mul_nonsing_inv _ h, Matrix.one_mulVec]
  · intro points hne h
    rw [Interpolate, if_neg hne, if_neg h]
  · intro points i j hij hx
    have hne : points ≠ [] := by
      intro hnil
      subst hnil
      exact absurd i.2 (by simp)
    have hdet : (vandermonde points).det = 0 := by
      apply Matrix.det_zero_of_row_eq hij
      simp only [List.get_eq_getElem] at hx
      funext k
      simp [vandermonde, hx]
    rw [Interpolate, if_neg hne, if_neg (by rw [hdet]; exact not_isUnit_zero)]
  · have hM : vandermonde [((0 : ℝ), (1 : ℝ)), (1, 3)] = !![(1 : ℝ), 0; 1, 1] := by
      funext i j
      fin_cases i <;> fin_cases j <;> norm_num [vandermonde]
    have hb : rhsVec [((0 : ℝ), (1 : ℝ)), (1, 3)] = ![1, 3] := by
      funext i
      fin_cases i <;> simp [rhsVec]
    have hu : IsUnit (vandermonde [((0 : ℝ), (1 : ℝ)), (1, 3)]).det := by
      rw [hM, Matrix.det_fin_two_of]
      norm_num
    have hsol : (vandermonde [((0 : ℝ), (1 : ℝ)), (1, 3)]).mulVec ![1, 2] =
        rhsVec [((0 : ℝ), (1 : ℝ)), (1, 3)] := by
      rw [hM, hb]
      funext i
      fin_cases i <;>
        simp [Matrix.mulVec, Matrix.dotProduct, Fin.sum_univ_two] <;> norm_num
    have hinv : (vandermonde [((0 : ℝ), (1 : ℝ)), (1, 3)])⁻¹.mulVec
        (rhsVec [((0 : ℝ), (1 : ℝ)), (1, 3)]) = ![1, 2] := by
      rw [← hsol, Matrix.mulVec_mulVec, Matrix.nonsing_inv_mul _ hu, Matrix.one_mulVec]
    rw [Interpolate, if_neg (by simp), if_pos hu]
    congr 1
    rw [hinv]
    simp [List.ofFn_succ]

/-- Witness for C8: two points with the same `x` value make the
system singular. -/
theorem c8_witness :
    Interpolate [((1 : ℝ), (2 : ℝ)), (1, 3)] = .error .singularSystem :=
  c8_interpolate.2.2.2.1 [((1 : ℝ), (2 : ℝ)), (1, 3)]
    ⟨0, by norm_num⟩ ⟨1, by norm_num⟩ (by decide) rfl

/-- C9: `FindRoots` fails with the empty-input error on `[]` and with
the degenerate-coefficient error when `c1 = 0` on a length-2 vector or
`c2 = 0` on a length-3 vector; for a length-2 vector with `c1 ≠ 0` it
returns the single root `−c0/c1` (a real cast, hence with zero
imaginary part). -/
theorem c9_findRoots_errors :
    FindRoots ([] : List ℝ) = .error .noCoefficients ∧
    (∀ c0 c1 : ℝ, c1 = 0 → FindRoots [c0, c1] = .error .invalidLinear) ∧
    (∀ c0 c1 c2 : ℝ, c2 = 0 → FindRoots [c0, c1, c2] = .error .invalidQuadratic) ∧
    (∀ c0 c1 : ℝ, c1 ≠ 0 → FindRoots [c0, c1] = .ok [((-c0 / c1 : ℝ) : ℂ)]) := by
  refine ⟨by simp [FindRoots], ?_, ?_, ?_⟩
  · intro c0 c1 h
    subst h
    simp [FindRoots]
  · intro c0 c1 c2 h
    subst h
    simp [FindRoots]
  · intro c0 c1 h
    simp [FindRoots, h]
    rw [← Complex.ofReal_neg, ← Complex.ofReal_div]
    rfl

/-- Witness for C9: `[5, 0]` is degenerate; `2x − 4` has the single
real root 2. -/
theorem c9_witness :
    FindRoots [(5 : ℝ), 0] = .error .invalidLinear ∧
    FindRoots [(-4 : ℝ), 2] = .ok [((2 : ℝ) : ℂ)] := by
  refine ⟨c9_findRoots_errors.2.1 5 0 rfl, ?_⟩
  have h := c9_findRoots_errors.2.2.2 (-4) 2 two_ne_zero
  rw [h, show (-(-4 : ℝ) / 2) = 2 by norm_num]

/-- C10: on a length-1 vector (a constant polynomial) `FindRoots`
falls through to the iterative branch, whose degree `n = 0 < 1` yields
no candidates: the result is an empty root list with no error. -/
theorem c10_constant_no_roots (c : ℝ) : FindRoots [c] = .ok [] := by
  simp [FindRoots, findRootsDurandKerner]

end Gomathpro
